import Mathlib

/-
Verification of the decking container-orchestration core.

The development shallowly embeds the relevant source functions:
  decking/util.py        iter_dependencies
  decking/runner.py      Decking (dict-based facade)
  decking/components.py  Container, Group, Cluster (object model)
Python dicts are modelled as association lists, the engine client as an
oracle whose replies are passed in as arguments, and engine traffic as an
explicit list of call events.  Printing to the terminal is modelled only
where a claim depends on it (warnings); message formatting with repr
quoting is elided.
-/

namespace DeckingProof

/-! ## Generic list machinery: the strictly-before relation on emitted sequences -/

/-- The element d appears strictly before some occurrence of x in the list l. -/
def appears_before {α : Type} (l : List α) (d x : α) : Prop :=
  ∃ l1 l2, l = l1 ++ d :: l2 ∧ x ∈ l2

theorem appears_before_append_left {α : Type} {l : List α} (m : List α) {d x : α}
    (h : appears_before l d x) : appears_before (m ++ l) d x := by
  obtain ⟨l1, l2, rfl, hx⟩ := h
  exact ⟨m ++ l1, l2, by simp, hx⟩

theorem appears_before_of_mem_left {α : Type} {l m : List α} {d x : α}
    (hd : d ∈ l) (hx : x ∈ m) : appears_before (l ++ m) d x := by
  obtain ⟨s, t, rfl⟩ := List.append_of_mem hd
  exact ⟨s, t ++ m, by simp, by simp [hx]⟩

theorem appears_before_reverse {α : Type} {l : List α} {d x : α}
    (h : appears_before l d x) : appears_before l.reverse x d := by
  obtain ⟨l1, l2, rfl, hx⟩ := h
  have hx2 : x ∈ l2.reverse := by simpa using hx
  obtain ⟨s, t, hst⟩ := List.append_of_mem hx2
  refine ⟨s, t ++ d :: l1.reverse, ?_, by simp⟩
  simp [List.reverse_append, hst]

theorem nodup_split_unique {α : Type} {b : α} :
    ∀ (u : List α) {v u2 v2 : List α}, (u ++ b :: v).Nodup →
      u ++ b :: v = u2 ++ b :: v2 → u = u2 ∧ v = v2 := by
  intro u
  induction u with
  | nil =>
    intro v u2 v2 hnd h2
    cases u2 with
    | nil =>
      simp only [List.nil_append] at h2
      injection h2 with _ h
      exact ⟨rfl, h⟩
    | cons a2 t2 =>
      simp only [List.nil_append, List.cons_append] at h2
      injection h2 with hb hv
      subst hb
      simp only [List.nil_append, List.nodup_cons] at hnd
      exact absurd (by rw [hv]; simp : b ∈ v) hnd.1
  | cons a u ih =>
    intro v u2 v2 hnd h2
    cases u2 with
    | nil =>
      simp only [List.cons_append, List.nil_append] at h2
      injection h2 with ha hv
      subst ha
      rw [List.cons_append, List.nodup_cons] at hnd
      exact absurd (by simp : a ∈ u ++ a :: v) hnd.1
    | cons a2 t2 =>
      simp only [List.cons_append] at h2
      injection h2 with ha hv
      subst ha
      rw [List.cons_append, List.nodup_cons] at hnd
      obtain ⟨h1, h3⟩ := ih hnd.2 hv
      exact ⟨by rw [h1], h3⟩

theorem appears_before_irrefl {α : Type} {l : List α} {x : α}
    (hnd : l.Nodup) : ¬ appears_before l x x := by
  rintro ⟨l1, l2, rfl, hx⟩
  have : (x :: l2).Nodup := hnd.of_append_right
  exact (List.nodup_cons.mp this).1 hx

theorem appears_before_trans {α : Type} {l : List α} {a b c : α}
    (hnd : l.Nodup) (h1 : appears_before l a b) (h2 : appears_before l b c) :
    appears_before l a c := by
  obtain ⟨u, v, h1e, hb⟩ := h1
  obtain ⟨u2, v2, h2e, hc⟩ := h2
  obtain ⟨p, q, hpq⟩ := List.append_of_mem hb
  have hnd2 : (u2 ++ b :: v2).Nodup := by rw [h2e] at hnd; exact hnd
  have h1e2 : u2 ++ b :: v2 = (u ++ a :: p) ++ b :: q := by
    rw [← h2e, h1e, hpq]; simp
  obtain ⟨hu, hv⟩ := nodup_split_unique u2 hnd2 h1e2
  refine ⟨u, v, h1e, ?_⟩
  rw [hpq]
  subst hv
  exact List.mem_append_right _ (List.mem_cons_of_mem _ hc)

theorem exists_min_by {α : Type} (f : α → Nat) :
    ∀ l : List α, l ≠ [] → ∃ a ∈ l, ∀ b ∈ l, f a ≤ f b := by
  intro l
  induction l with
  | nil => intro h; exact absurd rfl h
  | cons x xs ih =>
    intro _
    cases xs with
    | nil => exact ⟨x, by simp, by simp⟩
    | cons y ys =>
      obtain ⟨a, ha, hmin⟩ := ih (by simp)
      by_cases hle : f x ≤ f a
      · refine ⟨x, by simp, ?_⟩
        intro b hb
        rcases List.mem_cons.mp hb with rfl | hb
        · exact le_refl _
        · exact le_trans hle (hmin b hb)
      · refine ⟨a, by simp [ha], ?_⟩
        intro b hb
        rcases List.mem_cons.mp hb with rfl | hb
        · exact le_of_lt (lt_of_not_le hle)
        · exact hmin b hb

/-! ## The dependency resolver

Source, decking/util.py, iter_dependencies:

    to_process = set(to_process)
    processed = set()
    while to_process:
        pending = set()
        for item in list(to_process):
            if all(dep in processed for dep in get_item_dependencies(item)):
                to_process.remove(item)
                pending.add(item)
                yield item
        if not pending:
            raise RuntimeError(Missing or circular dependencies)
        processed |= pending

decking/runner.py, Decking._names_by_dependency, is the same loop over the
keys of a spec dict, additionally yielding None after each completed pass
and raising RuntimeError(Arg, you have bad dependencies) when stuck.

Both are embedded through resolveWaves, which returns the sequence of
passes (waves).  Sets are modelled as duplicate-free lists preserving a
fixed iteration order; the while loop is driven by fuel, and one pass of
the inner for loop is the filter by readyInPass.  Each successful pass
removes at least one element, so fuel equal to the number of items is
always sufficient; exhausted fuel is reported as the same error and is
proved unreachable below (resolveWaves_ok_of_rank). -/

def readyInPass (deps : String → List String) (pr : List String) (x : String) : Bool :=
  (deps x).all (fun d => pr.contains d)

def resolveWaves (deps : String → List String) :
    Nat → List String → List String → Except Unit (List (List String))
  | _, [], _ => .ok []
  | 0, _ :: _, _ => .error ()
  | fuel + 1, x :: rest, pr =>
    let tp := x :: rest
    let pending := tp.filter (readyInPass deps pr)
    let remaining := tp.filter (fun y => ! readyInPass deps pr y)
    if pending.isEmpty then .error ()
    else
      match resolveWaves deps fuel remaining (pr ++ pending) with
      | .ok restWaves => .ok (pending :: restWaves)
      | .error e => .error e

/-- Embedding of decking.util.iter_dependencies: the flattened sequence of
yielded items, or the RuntimeError message when the loop gets stuck. -/
def iter_dependencies (deps : String → List String) (to_process : List String) :
    Except String (List String) :=
  match resolveWaves deps to_process.length to_process [] with
  | .ok waves => .ok waves.flatten
  | .error _ => .error "Missing or circular dependencies"

/-! ## Runner container specs (parsed decking.json entries) -/

/-- Engine-reported container info, as used by the code: the Id, Status and
Names keys of the inspection dict.  Print-only keys (Ports) are elided. -/
structure DockerInfo where
  infoId : String
  status : String
  names : List String
deriving DecidableEq, Inhabited

/-- One parsed container spec as produced by Decking._parse_container_specs:
the decking.json fields plus derived links and dependency names, plus the
optional live instance key set by create or _populate_live_container_data.
The Python dict key instance is the instanceInfo field here. -/
structure RSpec where
  image : String
  env : List String
  port : List String
  mount : List String
  net : Option String
  privileged : Bool
  links : List (String × String)
  dependencies : List String
  instanceInfo : Option DockerInfo
deriving DecidableEq, Inhabited

/-- Dependency lookup used by _names_by_dependency:
specs[name].get(dependencies, default []). -/
def depsOfSpecs (specs : List (String × RSpec)) (n : String) : List String :=
  ((specs.lookup n).map RSpec.dependencies).getD []

/-- Embedding of Decking._names_by_dependency: yields the names of each
pass followed by a None marker, or the stuck-pass RuntimeError message. -/
def names_by_dependency (specs : List (String × RSpec)) :
    Except String (List (Option String)) :=
  match resolveWaves (depsOfSpecs specs) (specs.map Prod.fst).length
      (specs.map Prod.fst) [] with
  | .ok waves => .ok (waves.flatMap (fun w => w.map some ++ [none]))
  | .error _ => .error "Arg, you have bad dependencies"

/-- Embedding of Decking._dependency_aware_map restricted to the order of
processed keys: consumes _names_by_dependency (reversed as a whole when
reverse is set), invoking the operation exactly on the truthy keys
(None markers and empty names are skipped by the truthiness test on key). -/
def dependency_aware_map (specs : List (String × RSpec)) (reverse : Bool) :
    Except String (List String) :=
  match names_by_dependency specs with
  | .error e => .error e
  | .ok names =>
    let it := if reverse then names.reverse else names
    .ok (it.filterMap (fun k =>
      match k with
      | some s => if s = "" then none else some s
      | none => none))

/-- Order in which Decking.stop_cluster processes containers
(reverse=True). -/
def stop_cluster_order (specs : List (String × RSpec)) : Except String (List String) :=
  dependency_aware_map specs true

/-- Order in which Decking.remove_cluster processes containers
(no reverse flag is passed in the source). -/
def remove_cluster_order (specs : List (String × RSpec)) : Except String (List String) :=
  dependency_aware_map specs false

/-- Order in which Decking.create_cluster / start_cluster / run_cluster
process containers (forward). -/
def create_cluster_order (specs : List (String × RSpec)) : Except String (List String) :=
  dependency_aware_map specs false

/-! ## Resolver lemmas -/

theorem resolveWaves_nil (deps : String → List String) (fuel : Nat) (pr : List String) :
    resolveWaves deps fuel [] pr = .ok [] := by
  cases fuel <;> rfl

theorem resolveWaves_zero (deps : String → List String) (x : String)
    (rest pr : List String) :
    resolveWaves deps 0 (x :: rest) pr = .error () := rfl

theorem resolveWaves_cons (deps : String → List String) (fuel : Nat) (x : String)
    (rest pr : List String) :
    resolveWaves deps (fuel + 1) (x :: rest) pr =
      if ((x :: rest).filter (readyInPass deps pr)).isEmpty then .error ()
      else
        match resolveWaves deps fuel ((x :: rest).filter (fun y => ! readyInPass deps pr y))
            (pr ++ (x :: rest).filter (readyInPass deps pr)) with
        | .ok restWaves => .ok ((x :: rest).filter (readyInPass deps pr) :: restWaves)
        | .error e => .error e := rfl

theorem resolveWaves_perm (deps : String → List String) :
    ∀ (fuel : Nat) (tp pr : List String) (ws : List (List String)),
      resolveWaves deps fuel tp pr = .ok ws → ws.flatten.Perm tp := by
  intro fuel
  induction fuel with
  | zero =>
    intro tp pr ws h
    cases tp with
    | nil =>
      rw [resolveWaves_nil] at h
      injection h with h
      subst h; simp
    | cons x rest => rw [resolveWaves_zero] at h; exact absurd h (by simp)
  | succ n ih =>
    intro tp pr ws h
    cases tp with
    | nil =>
      rw [resolveWaves_nil] at h
      injection h with h
      subst h; simp
    | cons x rest =>
      rw [resolveWaves_cons] at h
      by_cases hemp : ((x :: rest).filter (readyInPass deps pr)).isEmpty
      · rw [if_pos hemp] at h; exact absurd h (by simp)
      · rw [if_neg hemp] at h
        cases hrec : resolveWaves deps n
            ((x :: rest).filter (fun y => ! readyInPass deps pr y))
            (pr ++ (x :: rest).filter (readyInPass deps pr)) with
        | error e => rw [hrec] at h; exact absurd h (by simp)
        | ok restWaves =>
          rw [hrec] at h
          injection h with h
          subst h
          rw [List.flatten_cons]
          exact ((ih _ _ _ hrec).append_left _).trans
            (List.filter_append_perm (readyInPass deps pr) (x :: rest))

theorem resolveWaves_closure (deps : String → List String) :
    ∀ (fuel : Nat) (tp pr : List String) (ws : List (List String)),
      resolveWaves deps fuel tp pr = .ok ws →
      ∀ x ∈ tp, ∀ d ∈ deps x, d ∈ pr ∨ d ∈ tp := by
  intro fuel
  induction fuel with
  | zero =>
    intro tp pr ws h
    cases tp with
    | nil => intro x hx; exact absurd hx (by simp)
    | cons a rest => rw [resolveWaves_zero] at h; exact absurd h (by simp)
  | succ n ih =>
    intro tp pr ws h
    cases tp with
    | nil => intro x hx; exact absurd hx (by simp)
    | cons a rest =>
      rw [resolveWaves_cons] at h
      by_cases hemp : ((a :: rest).filter (readyInPass deps pr)).isEmpty
      · rw [if_pos hemp] at h; exact absurd h (by simp)
      · rw [if_neg hemp] at h
        cases hrec : resolveWaves deps n
            ((a :: rest).filter (fun y => ! readyInPass deps pr y))
            (pr ++ (a :: rest).filter (readyInPass deps pr)) with
        | error e => rw [hrec] at h; exact absurd h (by simp)
        | ok restWaves =>
          intro x hx d hd
          by_cases hready : readyInPass deps pr x
          · left
            have hall := List.all_eq_true.mp hready d hd
            simpa using hall
          · have hxrem : x ∈ (a :: rest).filter (fun y => ! readyInPass deps pr y) :=
              List.mem_filter.mpr ⟨hx, by simp [hready]⟩
            rcases ih _ _ _ hrec x hxrem d hd with hpr | hrem
            · rcases List.mem_append.mp hpr with hl | hr
              · exact Or.inl hl
              · exact Or.inr (List.mem_of_mem_filter hr)
            · exact Or.inr (List.mem_of_mem_filter hrem)

theorem resolveWaves_ordering (deps : String → List String) :
    ∀ (fuel : Nat) (tp pr : List String) (ws : List (List String)),
      resolveWaves deps fuel tp pr = .ok ws →
      ∀ x ∈ tp, ∀ d ∈ deps x, d ∈ pr ∨ appears_before ws.flatten d x := by
  intro fuel
  induction fuel with
  | zero =>
    intro tp pr ws h
    cases tp with
    | nil => intro x hx; exact absurd hx (by simp)
    | cons a rest => rw [resolveWaves_zero] at h; exact absurd h (by simp)
  | succ n ih =>
    intro tp pr ws h
    cases tp with
    | nil => intro x hx; exact absurd hx (by simp)
    | cons a rest =>
      rw [resolveWaves_cons] at h
      by_cases hemp : ((a :: rest).filter (readyInPass deps pr)).isEmpty
      · rw [if_pos hemp] at h; exact absurd h (by simp)
      · rw [if_neg hemp] at h
        cases hrec : resolveWaves deps n
            ((a :: rest).filter (fun y => ! readyInPass deps pr y))
            (pr ++ (a :: rest).filter (readyInPass deps pr)) with
        | error e => rw [hrec] at h; exact absurd h (by simp)
        | ok restWaves =>
          rw [hrec] at h
          injection h with h
          subst h
          intro x hx d hd
          rw [List.flatten_cons]
          by_cases hready : readyInPass deps pr x
          · left
            have hall := List.all_eq_true.mp hready d hd
            simpa using hall
          · have hxrem : x ∈ (a :: rest).filter (fun y => ! readyInPass deps pr y) :=
              List.mem_filter.mpr ⟨hx, by simp [hready]⟩
            have hxflat : x ∈ restWaves.flatten :=
              (resolveWaves_perm deps _ _ _ _ hrec).mem_iff.mpr hxrem
            rcases ih _ _ _ hrec x hxrem d hd with hpr | hbefore
            · rcases List.mem_append.mp hpr with hl | hr
              · exact Or.inl hl
              · exact Or.inr (appears_before_of_mem_left hr hxflat)
            · exact Or.inr (appears_before_append_left _ hbefore)

theorem resolveWaves_ok_of_rank (deps : String → List String) (rank : String → Nat) :
    ∀ (fuel : Nat) (tp pr : List String),
      tp.length ≤ fuel →
      (∀ x ∈ tp, ∀ d ∈ deps x, d ∈ pr ∨ d ∈ tp) →
      (∀ x ∈ tp, ∀ d ∈ deps x, rank d < rank x) →
      ∃ ws, resolveWaves deps fuel tp pr = .ok ws := by
  intro fuel
  induction fuel with
  | zero =>
    intro tp pr hlen hclosed hrank
    cases tp with
    | nil => exact ⟨[], resolveWaves_nil ..⟩
    | cons a rest => simp at hlen
  | succ n ih =>
    intro tp pr hlen hclosed hrank
    cases tp with
    | nil => exact ⟨[], resolveWaves_nil ..⟩
    | cons a rest =>
      obtain ⟨x0, hx0, hmin⟩ := exists_min_by rank (a :: rest) (by simp)
      have hx0ready : readyInPass deps pr x0 = true := by
        rw [readyInPass, List.all_eq_true]
        intro d hd
        rcases hclosed x0 hx0 d hd with hpr | htp
        · simpa using hpr
        · exact absurd (hrank x0 hx0 d hd) (not_lt.mpr (hmin d htp))
      have hx0p : x0 ∈ (a :: rest).filter (readyInPass deps pr) :=
        List.mem_filter.mpr ⟨hx0, hx0ready⟩
      have hemp : ¬ ((a :: rest).filter (readyInPass deps pr)).isEmpty := by
        rw [List.isEmpty_iff]
        exact List.ne_nil_of_mem hx0p
      have hlensum :
          ((a :: rest).filter (readyInPass deps pr)).length +
            ((a :: rest).filter (fun y => ! readyInPass deps pr y)).length =
            (a :: rest).length :=
        (List.filter_append_perm (readyInPass deps pr) (a :: rest)).length_eq.symm ▸
          (List.length_append ..).symm
      have hpendpos : 0 < ((a :: rest).filter (readyInPass deps pr)).length :=
        List.length_pos.mpr (List.ne_nil_of_mem hx0p)
      have hremlen :
          ((a :: rest).filter (fun y => ! readyInPass deps pr y)).length ≤ n := by
        simp only [List.length_cons] at hlen hlensum
        omega
      have hclosed2 : ∀ x ∈ (a :: rest).filter (fun y => ! readyInPass deps pr y),
          ∀ d ∈ deps x,
          d ∈ pr ++ (a :: rest).filter (readyInPass deps pr) ∨
          d ∈ (a :: rest).filter (fun y => ! readyInPass deps pr y) := by
        intro x hx d hd
        rcases hclosed x (List.mem_of_mem_filter hx) d hd with hpr | htp
        · exact Or.inl (List.mem_append_left _ hpr)
        · by_cases hready : readyInPass deps pr d
          · exact Or.inl (List.mem_append_right _ (List.mem_filter.mpr ⟨htp, hready⟩))
          · exact Or.inr (List.mem_filter.mpr ⟨htp, by simp [hready]⟩)
      have hrank2 : ∀ x ∈ (a :: rest).filter (fun y => ! readyInPass deps pr y),
          ∀ d ∈ deps x, rank d < rank x := by
        intro x hx d hd
        exact hrank x (List.mem_of_mem_filter hx) d hd
      obtain ⟨ws, hws⟩ := ih _ _ hremlen hclosed2 hrank2
      refine ⟨(a :: rest).filter (readyInPass deps pr) :: ws, ?_⟩
      rw [resolveWaves_cons, if_neg hemp, hws]

/-- A nonempty chain of dependency edges leading from x to y. -/
inductive DepPath (deps : String → List String) : String → String → Prop where
  | single (x d : String) : d ∈ deps x → DepPath deps x d
  | cons (x d y : String) : d ∈ deps x → DepPath deps d y → DepPath deps x y

theorem resolveWaves_path_before (deps : String → List String) {fuel : Nat}
    {tp : List String} {ws : List (List String)} (hnd : tp.Nodup)
    (hok : resolveWaves deps fuel tp [] = .ok ws) :
    ∀ x y, DepPath deps x y → x ∈ tp →
      y ∈ tp ∧ appears_before ws.flatten y x := by
  have hndws : ws.flatten.Nodup :=
    ((resolveWaves_perm deps _ _ _ _ hok).nodup_iff).mpr hnd
  intro x y hpath
  induction hpath with
  | single a d hd =>
    intro ha
    have hd_tp : d ∈ tp := by
      rcases resolveWaves_closure deps _ _ _ _ hok a ha d hd with h | h
      · exact absurd h (by simp)
      · exact h
    refine ⟨hd_tp, ?_⟩
    rcases resolveWaves_ordering deps _ _ _ _ hok a ha d hd with h | h
    · exact absurd h (by simp)
    · exact h
  | cons a d y hd _ ih =>
    intro ha
    have hd_tp : d ∈ tp := by
      rcases resolveWaves_closure deps _ _ _ _ hok a ha d hd with h | h
      · exact absurd h (by simp)
      · exact h
    have hda : appears_before ws.flatten d a := by
      rcases resolveWaves_ordering deps _ _ _ _ hok a ha d hd with h | h
      · exact absurd h (by simp)
      · exact h
    obtain ⟨hy_tp, hyd⟩ := ih hd_tp
    exact ⟨hy_tp, appears_before_trans hndws hyd hda⟩

/-! ## Claim C1 -/

/-- C1: for every finite set of named items (a duplicate-free list) whose
dependency relation stays inside the set and is acyclic (witnessed by a
rank function decreasing along edges), iter_dependencies succeeds, emits
every item of the set exactly once and nothing else, and for every edge
(item, dep) the dependency dep is emitted strictly before item. -/
theorem c1_resolver_topological (to_process : List String)
    (deps : String → List String) (rank : String → Nat)
    (hnd : to_process.Nodup)
    (hclosed : ∀ x ∈ to_process, ∀ d ∈ deps x, d ∈ to_process)
    (hrank : ∀ x ∈ to_process, ∀ d ∈ deps x, rank d < rank x) :
    ∃ out, iter_dependencies deps to_process = .ok out ∧
      (∀ x ∈ to_process, out.count x = 1) ∧
      (∀ x, x ∉ to_process → out.count x = 0) ∧
      (∀ x ∈ to_process, ∀ d ∈ deps x, appears_before out d x) := by
  obtain ⟨ws, hws⟩ := resolveWaves_ok_of_rank deps rank to_process.length to_process []
    le_rfl (fun x hx d hd => Or.inr (hclosed x hx d hd)) hrank
  have hperm := resolveWaves_perm deps _ _ _ _ hws
  refine ⟨ws.flatten, ?_, ?_, ?_, ?_⟩
  · simp only [iter_dependencies, hws]
  · intro x hx
    rw [hperm.count_eq]
    exact List.count_eq_one_of_mem hnd hx
  · intro x hx
    rw [hperm.count_eq]
    exact List.count_eq_zero.mpr hx
  · intro x hx d hd
    rcases resolveWaves_ordering deps _ _ _ _ hws x hx d hd with h | h
    · exact absurd h (by simp)
    · exact h

/-- Dependency function of the worked example from the repository test
suite: a depends on b and c, b depends on c, c has no dependencies. -/
def exampleDeps : String → List String := fun n =>
  if n = "a" then ["b", "c"] else if n = "b" then ["c"] else []

/-- Rank function witnessing acyclicity of exampleDeps. -/
def exampleRank : String → Nat := fun n =>
  if n = "a" then 2 else if n = "b" then 1 else 0

theorem c1_resolver_topological_witness :
    ∃ out, iter_dependencies exampleDeps ["a", "b", "c"] = .ok out ∧
      (∀ x ∈ ["a", "b", "c"], out.count x = 1) ∧
      (∀ x, x ∉ ["a", "b", "c"] → out.count x = 0) ∧
      (∀ x ∈ ["a", "b", "c"], ∀ d ∈ exampleDeps x, appears_before out d x) :=
  c1_resolver_topological ["a", "b", "c"] exampleDeps exampleRank
    (by decide) (by decide) (by decide)

/-! ## Claim C2 -/

/-- C2: on every input whose dependency relation has a cycle starting at a
member, or a dependency name absent from the input set, both resolvers
terminate (they are total functions of fuel bounded by the input size) and
fail with their documented missing-or-circular-dependency RuntimeError
message instead of returning an order. -/
theorem c2_resolver_error_on_bad_deps (specs : List (String × RSpec))
    (hnd : (specs.map Prod.fst).Nodup)
    (hbad : (∃ x ∈ specs.map Prod.fst, DepPath (depsOfSpecs specs) x x) ∨
      (∃ x ∈ specs.map Prod.fst, ∃ d ∈ depsOfSpecs specs x,
        d ∉ specs.map Prod.fst)) :
    iter_dependencies (depsOfSpecs specs) (specs.map Prod.fst) =
      .error "Missing or circular dependencies" ∧
    names_by_dependency specs = .error "Arg, you have bad dependencies" := by
  cases hres : resolveWaves (depsOfSpecs specs) (specs.map Prod.fst).length
      (specs.map Prod.fst) [] with
  | ok ws =>
    exfalso
    rcases hbad with ⟨x, hx, hpath⟩ | ⟨x, hx, d, hd, hdnot⟩
    · obtain ⟨-, hb⟩ := resolveWaves_path_before _ hnd hres x x hpath hx
      have hndws : ws.flatten.Nodup :=
        ((resolveWaves_perm _ _ _ _ _ hres).nodup_iff).mpr hnd
      exact appears_before_irrefl hndws hb
    · rcases resolveWaves_closure _ _ _ _ _ hres x hx d hd with h | h
      · simp at h
      · exact hdnot h
  | error e =>
    constructor
    · simp only [iter_dependencies, hres]
    · simp only [names_by_dependency, hres]

/-- The self-dependent container spec of the zen example: zen depends on
zen (parsed from the dependency entry zen:zen_alias). -/
def zenSpec : RSpec :=
  { image := "repo/zen", env := [], port := [], mount := [], net := none,
    privileged := false, links := [("zen", "zen_alias")],
    dependencies := ["zen"], instanceInfo := none }

theorem c2_resolver_error_witness :
    iter_dependencies (depsOfSpecs [("zen", zenSpec)])
        (List.map Prod.fst [("zen", zenSpec)]) =
      .error "Missing or circular dependencies" ∧
    names_by_dependency [("zen", zenSpec)] =
      .error "Arg, you have bad dependencies" :=
  c2_resolver_error_on_bad_deps [("zen", zenSpec)] (by decide)
    (Or.inl ⟨"zen", by decide, DepPath.single "zen" "zen" (by decide)⟩)

/-! ## Claim C9 -/

/-- C9: every sequence successfully emitted by the resolver, once reversed,
is a valid teardown order: for every edge (item, dep), item appears
strictly before dep in the reversed sequence.  This is the order used by
Cluster.stop and Cluster.remove, which iterate reversed(tuple(self)). -/
theorem c9_reverse_is_teardown_order (deps : String → List String)
    (to_process out : List String)
    (hok : iter_dependencies deps to_process = .ok out) :
    ∀ x ∈ to_process, ∀ d ∈ deps x, appears_before out.reverse x d := by
  cases hres : resolveWaves deps to_process.length to_process [] with
  | error e => simp [iter_dependencies, hres] at hok
  | ok ws =>
    have hout : out = ws.flatten := by
      simp only [iter_dependencies, hres] at hok
      injection hok with hok
      exact hok.symm
    subst hout
    intro x hx d hd
    rcases resolveWaves_ordering deps _ _ _ _ hres x hx d hd with h | h
    · exact absurd h (by simp)
    · exact appears_before_reverse h

theorem c9_reverse_is_teardown_order_witness :
    appears_before (List.reverse ["c", "b", "a"]) "a" "b" :=
  c9_reverse_is_teardown_order exampleDeps ["a", "b", "c"] ["c", "b", "a"]
    rfl "a" (by decide) "b" (by decide)

/-! ## Python dicts and the group override merge (decking/components.py)

A dict is an association list without duplicate keys; dict.update is a
left fold of key-by-key insertion, where an existing key is overwritten in
place and a new key is appended. -/

/-- A Python dict with string keys and values, in insertion order. -/
abbrev EnvMap := List (String × String)

/-- Assignment d[k] = v: overwrite the first binding of k, else append. -/
def setKey : EnvMap → String → String → EnvMap
  | [], k, v => [(k, v)]
  | (k0, v0) :: rest, k, v =>
    if k0 = k then (k0, v) :: rest else (k0, v0) :: setKey rest k v

/-- Python dict.update(overlay): every key of the overlay overwrites or
extends the receiver. -/
def dict_update (m overlay : EnvMap) : EnvMap :=
  overlay.foldl (fun acc kv => setKey acc kv.1 kv.2) m

/-- A key of Group.per_container_specs.  The Group docstring and every
construction in the repository key this mapping by Container objects;
the merge below compares the key with a container name string.  In Python
an == comparison between a Container object and a string is always False
(no custom __eq__ is defined), which byContainer models; byName models a
hypothetical name-keyed mapping, for which the comparison is string
equality. -/
inductive GroupKey where
  | byName (s : String)
  | byContainer (objId : Nat)
deriving DecidableEq

/-- The Python test name == self.name for a per-container key. -/
def groupKeyMatches (k : GroupKey) (n : String) : Bool :=
  match k with
  | .byName s => s == n
  | .byContainer _ => false

/-- The dict-valued attributes of a ContainerData record that the group
merge reads (getattr with attr_name equal to environment or
volume_bindings). -/
structure ContainerDataModel where
  environment : EnvMap
  volume_bindings : EnvMap
deriving DecidableEq, Inhabited

/-- A Group: common options plus per-container overrides. -/
structure GroupModel where
  options : ContainerDataModel
  per_container_specs : List (GroupKey × ContainerDataModel)
deriving DecidableEq, Inhabited

/-- Embedding of Container._get_group_modified_dict_attribute: copy the
base attribute dict, update it with the group options attribute, then
update it with each per-container override whose key equals the container
name.  The attribute is selected by the projection attr. -/
def get_group_modified_dict_attribute (selfName : String) (selfAttr : EnvMap)
    (group : Option GroupModel) (attr : ContainerDataModel → EnvMap) : EnvMap :=
  let value := selfAttr
  match group with
  | none => value
  | some g =>
    let value := dict_update value (attr g.options)
    g.per_container_specs.foldl
      (fun v kv => if groupKeyMatches kv.1 selfName then dict_update v (attr kv.2) else v)
      value

/-! ### Heap model of the merge, for the frame claim

The Python statement value = dict(getattr(self, attr_name)) allocates a
fresh dict holding a copy of the base attribute; all later update calls
write through the fresh reference only.  The heap model makes the aliasing
explicit so that non-mutation of the base and group dicts is a provable
statement rather than a modelling artifact. -/

/-- A heap of Python dict objects, addressed by allocation order. -/
structure DictHeap where
  store : Nat → EnvMap
  next : Nat

/-- Allocate a fresh dict with the given contents. -/
def heapAlloc (h : DictHeap) (content : EnvMap) : Nat × DictHeap :=
  (h.next,
   { store := fun a => if a = h.next then content else h.store a,
     next := h.next + 1 })

/-- Overwrite the dict at an address. -/
def heapWrite (h : DictHeap) (addr : Nat) (content : EnvMap) : DictHeap :=
  { h with store := fun a => if a = addr then content else h.store a }

/-- The group record with its dict attributes held by reference. -/
structure GroupHeapModel where
  optionsAttrAddr : Nat
  per_container_specs : List (GroupKey × Nat)

/-- Heap-level embedding of Container._get_group_modified_dict_attribute:
value = dict(getattr(self, attr_name)) allocates a fresh copy; each
value.update(...) writes only through the fresh address; the address of
the result dict and the final heap are returned. -/
def get_group_modified_dict_attribute_heap (h : DictHeap) (selfAttrAddr : Nat)
    (selfName : String) (group : Option GroupHeapModel) : Nat × DictHeap :=
  let alloc := heapAlloc h (h.store selfAttrAddr)
  let valueAddr := alloc.1
  let h1 := alloc.2
  match group with
  | none => (valueAddr, h1)
  | some g =>
    let h2 := heapWrite h1 valueAddr
      (dict_update (h1.store valueAddr) (h1.store g.optionsAttrAddr))
    let h3 := g.per_container_specs.foldl
      (fun hh kv =>
        if groupKeyMatches kv.1 selfName then
          heapWrite hh valueAddr (dict_update (hh.store valueAddr) (hh.store kv.2))
        else hh)
      h2
    (valueAddr, h3)

/-! ## Container operations of decking/components.py

The docker client is an oracle: the reply it would give to a create call
is passed in as an argument, and the calls issued are returned as a list
of events.  Containers are identified by name (unique within a
configuration); the dependencies dict of Container maps the name of each
dependency container to its link alias. -/

/-- Mutable state of a components.Container: its configuration plus the
optional engine info cached in _docker_container_info.  created is
bool(_docker_container_info); an engine-returned info dict is non-empty,
so truthiness coincides with presence. -/
structure ContainerState where
  name : String
  image : String
  port_bindings : EnvMap
  environment : EnvMap
  net : Option String
  privileged : Bool
  volume_bindings : EnvMap
  dependencies : List (String × String)
  docker_container_info : Option DockerInfo
deriving DecidableEq, Inhabited

def Container_created (c : ContainerState) : Bool :=
  c.docker_container_info.isSome

/-- Calls made to the docker client by components.Container methods. -/
inductive EngineCall where
  | create_container (image name : String) (environment : EnvMap) (ports : List String)
  | start (info : DockerInfo) (binds : List (String × String × Bool))
      (links : List (String × String)) (port_bindings : EnvMap)
      (privileged : Bool) (network_mode : Option String)
  | stop (info : DockerInfo) (timeout : Nat)
  | remove_container (info : DockerInfo)
deriving DecidableEq

/-- Embedding of Container.create: if already created, only report;
otherwise compute the group-modified environment, call the engine create
primitive and store the returned info. -/
def Container_create (c : ContainerState) (group : Option GroupModel)
    (reply : DockerInfo) : ContainerState × List EngineCall :=
  if Container_created c then (c, [])
  else
    ({ c with docker_container_info := some reply },
     [EngineCall.create_container c.image c.name
        (get_group_modified_dict_attribute c.name c.environment group
          ContainerDataModel.environment)
        (c.port_bindings.map Prod.fst)])

/-- Embedding of Container._format_volume_bindings. -/
def format_volume_bindings (vb : EnvMap) : List (String × String × Bool) :=
  vb.map (fun p => (p.1, p.2, false))

/-- Embedding of Container.start, guarded by assert_created: a
never-created container raises the not-created RuntimeError (repr quoting
of the name elided) before any engine call. -/
def Container_start (c : ContainerState) (group : Option GroupModel) :
    Except String Unit × List EngineCall :=
  match c.docker_container_info with
  | none => (.error ("Docker container " ++ c.name ++ " not created!"), [])
  | some info =>
    (.ok (),
     [EngineCall.start info
        (format_volume_bindings
          (get_group_modified_dict_attribute c.name c.volume_bindings group
            ContainerDataModel.volume_bindings))
        c.dependencies c.port_bindings c.privileged c.net])

/-- Embedding of Container.stop, guarded by assert_created. -/
def Container_stop (c : ContainerState) : Except String Unit × List EngineCall :=
  match c.docker_container_info with
  | none => (.error ("Docker container " ++ c.name ++ " not created!"), [])
  | some info => (.ok (), [EngineCall.stop info 8])

/-- Embedding of Container.remove, guarded by assert_created; an engine
APIError during removal is caught and reported, so the call is still
issued and no exception escapes. -/
def Container_remove (c : ContainerState) : Except String Unit × List EngineCall :=
  match c.docker_container_info with
  | none => (.error ("Docker container " ++ c.name ++ " not created!"), [])
  | some info => (.ok (), [EngineCall.remove_container info])

/-- Dependency names of the cluster member called n (Cluster iterates
iter_dependencies over its Container objects with their dependencies
dicts; containers are identified by name). -/
def containerDeps (containers : List ContainerState) (n : String) : List String :=
  match containers.find? (fun c => c.name == n) with
  | some c => c.dependencies.map Prod.fst
  | none => []

/-- Order in which Cluster.create / Cluster.start / Cluster.run visit
containers: the resolver order. -/
def Cluster_forward_order (containers : List ContainerState) :
    Except String (List String) :=
  iter_dependencies (containerDeps containers) (containers.map ContainerState.name)

/-- Order in which Cluster.stop visits containers:
reversed(tuple(self)). -/
def Cluster_stop_order (containers : List ContainerState) :
    Except String (List String) :=
  (Cluster_forward_order containers).map List.reverse

/-- Order in which Cluster.remove visits containers:
reversed(tuple(self)). -/
def Cluster_remove_order (containers : List ContainerState) :
    Except String (List String) :=
  (Cluster_forward_order containers).map List.reverse

/-! ## Container operations of decking/runner.py (dict-based Decking) -/

/-- Calls made to the docker client by Decking methods. -/
inductive RCall where
  | create_container (image name : String) (environment : List String)
      (ports : List String)
  | inspect_container (name : String)
  | start (infoId : String) (binds : List (String × String × Bool))
      (links : List (String × String)) (port_bindings : EnvMap)
      (privileged : Bool) (network_mode : Option String)
  | stop (infoId : String) (timeout : Nat)
  | remove_container (infoId : String)
  | containers
deriving DecidableEq

/-- Terminal output events (only the ones claims depend on are used). -/
inductive TermEvent where
  | step (msg : String)
  | line (msg : String)
  | warning (msg : String)
  | errorLine (msg : String)
deriving DecidableEq

/-- Embedding of Decking._uncolon_mapping for single-colon entries (an
entry with another colon count raises in Python and is out of scope). -/
def uncolon_mapping (l : List String) : EnvMap :=
  l.map (fun s =>
    ((s.splitOn ":").headD "", String.intercalate ":" (s.splitOn ":").tail))

/-- Embedding of Decking.create_container: with an instance key present,
only report and re-inspect; otherwise call the engine create primitive and
store the returned info under the instance key. -/
def create_container (name : String) (spec : RSpec) (reply : DockerInfo) :
    RSpec × List RCall :=
  if spec.instanceInfo.isSome then (spec, [RCall.inspect_container name])
  else
    ({ spec with instanceInfo := some reply },
     [RCall.create_container spec.image name spec.env
        ((uncolon_mapping spec.port).map Prod.fst)])

/-- Embedding of Decking._build_volume_binding. -/
def build_volume_binding (mount_spec : String) : String × String × Bool :=
  ((mount_spec.splitOn ":").headD "",
   String.intercalate ":" (mount_spec.splitOn ":").tail, false)

/-- Embedding of Decking.start_container: bindings are computed first
(pure), then a missing instance key raises before any engine call. -/
def start_container (name : String) (spec : RSpec) :
    Except String Unit × List RCall :=
  let volume_bindings := spec.mount.map build_volume_binding
  let port_bindings := uncolon_mapping spec.port
  match spec.instanceInfo with
  | none => (.error "Must create a container instance before attempting to run", [])
  | some info =>
    (.ok (),
     [RCall.start info.infoId volume_bindings spec.links port_bindings
        spec.privileged spec.net])

/-- Embedding of Decking.stop_container: silently does nothing without an
instance key. -/
def stop_container (spec : RSpec) : List RCall :=
  match spec.instanceInfo with
  | none => []
  | some info => [RCall.stop info.infoId 8]

/-- Embedding of Decking.remove_container: warns and does nothing without
an instance key; otherwise issues the removal (an engine APIError is
caught and reported). -/
def remove_container (name : String) (spec : RSpec) :
    List RCall × List TermEvent :=
  match spec.instanceInfo with
  | none => ([], [TermEvent.warning ("no instance found for " ++ name)])
  | some info =>
    ([RCall.remove_container info.infoId],
     [TermEvent.step ("removing container " ++ name ++ " (" ++
        info.infoId.take 12 ++ ")...")])

/-- Embedding of Decking._populate_live_container_data: for every
engine-reported container and each of its names (leading slash stripped),
refresh the instance key of a matching spec. -/
def populate_live_container_data (specs : List (String × RSpec))
    (live : List DockerInfo) : List (String × RSpec) :=
  live.foldl
    (fun acc info =>
      info.names.foldl
        (fun acc2 rawName =>
          let name := rawName.drop 1
          if (acc2.lookup name).isSome then
            acc2.map (fun p =>
              if p.1 = name then (p.1, { p.2 with instanceInfo := some info }) else p)
          else acc2)
        acc)
    specs

/-- Embedding of Decking.status_container: a pure report of liveness and
id from the stored instance key; no engine call, no state change.
Port lines and exact message text are elided. -/
def status_container (name : String) (spec : RSpec) : List TermEvent :=
  match spec.instanceInfo with
  | none => [TermEvent.step (name ++ " is not created")]
  | some info =>
    if info.status.startsWith "Up" then
      [TermEvent.step (name ++ " (" ++ info.infoId.take 12 ++ "): " ++ info.status)]
    else
      [TermEvent.warning (name ++ " (" ++ info.infoId.take 12 ++ "): " ++ info.status)]

/-- Embedding of Decking.status_cluster for a list-form (group-free)
cluster: first _populate_live_container_data refreshes the instance keys
from the engine (the single read-only listing call), then each member is
reported with status_container, which touches nothing.  The resulting
stored state and the engine calls issued are returned. -/
def status_cluster (specs : List (String × RSpec)) (live : List DockerInfo) :
    (List (String × RSpec)) × List RCall :=
  (populate_live_container_data specs live, [RCall.containers])

/-! ## Runner group overrides (Decking._build_dynamic_container_specs_for_cluster) -/

/-- A group options dict for the runner: the decking.json keys it may
override on a container spec.  A missing key leaves the spec field
untouched; a present key replaces the whole field value. -/
structure RGroupOptions where
  env : Option (List String) := none
  port : Option (List String) := none
  mount : Option (List String) := none
  net : Option String := none
  privileged : Option Bool := none
deriving DecidableEq, Inhabited

/-- Python spec.update(options): top-level dict update of the spec, so a
present options key replaces the spec field wholesale. -/
def rspec_update (s : RSpec) (o : RGroupOptions) : RSpec :=
  { s with
    env := o.env.getD s.env,
    port := o.port.getD s.port,
    mount := o.mount.getD s.mount,
    net := match o.net with | some n => some n | none => s.net,
    privileged := o.privileged.getD s.privileged }

/-- A runner group spec: common options plus per-container-name options. -/
structure RGroupSpec where
  options : RGroupOptions
  containers : List (String × RGroupOptions)
deriving DecidableEq, Inhabited

/-- Embedding of Decking._build_dynamic_container_specs_for_cluster for a
dict-form cluster: filter the specs to the cluster members, then update
each with the group options and with the per-container update.  (In
Python this mutates the shared spec dicts in place; the model returns the
resulting specs.) -/
def build_dynamic_container_specs_for_cluster (container_names : List String)
    (container_specs : List (String × RSpec)) (group_spec : RGroupSpec) :
    List (String × RSpec) :=
  (container_specs.filter (fun p => container_names.contains p.1)).map
    (fun p =>
      (p.1, rspec_update (rspec_update p.2 group_spec.options)
        ((group_spec.containers.lookup p.1).getD {})))

/-! ## Concrete fixtures -/

/-- A dependency-free container spec named alice. -/
def aliceSpec : RSpec :=
  { image := "repo/alice", env := [], port := [], mount := [], net := none,
    privileged := false, links := [], dependencies := [], instanceInfo := none }

/-- A container spec named bob that depends on alice. -/
def bobSpec : RSpec :=
  { image := "repo/bob", env := [], port := [], mount := [], net := none,
    privileged := false, links := [("alice", "alice_alias")],
    dependencies := ["alice"], instanceInfo := none }

/-- A never-created components.Container named alice. -/
def aliceContainer : ContainerState :=
  { name := "alice", image := "repo/alice", port_bindings := [],
    environment := [], net := none, privileged := false,
    volume_bindings := [], dependencies := [],
    docker_container_info := none }

/-- A never-created components.Container named bob depending on alice. -/
def bobContainer : ContainerState :=
  { name := "bob", image := "repo/bob", port_bindings := [],
    environment := [], net := none, privileged := false,
    volume_bindings := [], dependencies := [("alice", "alice_alias")],
    docker_container_info := none }

/-- An engine reply for the container named alice. -/
def aliceInfo : DockerInfo :=
  { infoId := "183612dfe2c984e7363417dd", status := "Up 3 seconds",
    names := ["/alice"] }

/-- A second, distinct engine reply. -/
def otherInfo : DockerInfo :=
  { infoId := "7295655e7ff050bddbac5d72", status := "", names := ["/bob"] }

/-! ## Claim C3 -/

/-- C3: order of cluster teardown operations at the two-container cluster
in which bob depends on alice.  Cluster.stop, Cluster.remove and
Decking.stop_cluster process bob (the dependent) before alice, but
Decking.remove_cluster passes no reverse flag and removes alice first —
refuting the claim that the remove cluster operation processes dependents
before their dependencies. -/
theorem c3_cluster_operation_orders :
    stop_cluster_order [("alice", aliceSpec), ("bob", bobSpec)] =
      .ok ["bob", "alice"] ∧
    remove_cluster_order [("alice", aliceSpec), ("bob", bobSpec)] =
      .ok ["alice", "bob"] ∧
    create_cluster_order [("alice", aliceSpec), ("bob", bobSpec)] =
      .ok ["alice", "bob"] ∧
    Cluster_stop_order [aliceContainer, bobContainer] = .ok ["bob", "alice"] ∧
    Cluster_remove_order [aliceContainer, bobContainer] = .ok ["bob", "alice"] :=
  ⟨rfl, rfl, rfl, rfl, rfl⟩

/-! ## Claim C4 -/

/-- The spec example group options: environment A=1, B=2. -/
def fluffyOptions : ContainerDataModel :=
  { environment := [("A", "1"), ("B", "2")], volume_bindings := [] }

/-- The spec example per-container override for container x: B=9. -/
def fluffyOverrideX : ContainerDataModel :=
  { environment := [("B", "9")], volume_bindings := [] }

/-- The group as the repository constructs groups: per-container overrides
keyed by the Container object itself. -/
def fluffyGroupObjKeyed : GroupModel :=
  { options := fluffyOptions,
    per_container_specs := [(GroupKey.byContainer 0, fluffyOverrideX)] }

/-- The same group keyed by container name instead. -/
def fluffyGroupNameKeyed : GroupModel :=
  { options := fluffyOptions,
    per_container_specs := [(GroupKey.byName "x", fluffyOverrideX)] }

/-- C4: evaluation of the group merge at the documented example (options
env A=1 B=2, override for container x env B=9).  With the per-container
mapping keyed by Container objects — the only keying the repository uses —
the override layer never matches self.name and the computed environment
keeps B=2, not the claimed B=9; keyed by name the claimed merge B=9 is
produced.  On the runner side, spec.update replaces the env field
wholesale, erasing a base entry whose key is absent from the overlay. -/
theorem c4_group_override_merge_eval :
    get_group_modified_dict_attribute "x" [] (some fluffyGroupObjKeyed)
      ContainerDataModel.environment = [("A", "1"), ("B", "2")] ∧
    get_group_modified_dict_attribute "x" [] (some fluffyGroupNameKeyed)
      ContainerDataModel.environment = [("A", "1"), ("B", "9")] ∧
    (rspec_update { aliceSpec with env := ["BASE=1"] }
      { env := some ["SOME=2"] }).env = ["SOME=2"] :=
  ⟨rfl, rfl, rfl⟩

/-! ## Claim C5 -/

/-- Test for the engine create primitive among components engine calls. -/
def isEngineCreate : EngineCall → Bool
  | EngineCall.create_container .. => true
  | _ => false

/-- Test for the engine create primitive among runner engine calls. -/
def isRCreate : RCall → Bool
  | RCall.create_container .. => true
  | _ => false

/-- C5: calling create twice on a not-yet-created container without an
intervening remove issues exactly one engine create call, and the stored
identity after the second call is still the one returned by the first
call.  Holds for components.Container.create and for
Decking.create_container (whose second call only re-inspects). -/
theorem c5_create_idempotent (c : ContainerState) (group : Option GroupModel)
    (r1 r2 : DockerInfo) (hc : c.docker_container_info = none)
    (name : String) (spec : RSpec) (q1 q2 : DockerInfo)
    (hs : spec.instanceInfo = none) :
    ((Container_create c group r1).2 ++
        (Container_create (Container_create c group r1).1 group r2).2).countP
      isEngineCreate = 1 ∧
    (Container_create (Container_create c group r1).1 group r2).1.docker_container_info
      = some r1 ∧
    ((create_container name spec q1).2 ++
        (create_container name (create_container name spec q1).1 q2).2).countP
      isRCreate = 1 ∧
    (create_container name (create_container name spec q1).1 q2).1.instanceInfo
      = some q1 := by
  have hnc : Container_created c = false := by
    simp [Container_created, hc]
  refine ⟨?_, ?_, ?_, ?_⟩ <;>
    simp [Container_create, create_container, Container_created, hc, hs,
      isEngineCreate, isRCreate]

theorem c5_create_idempotent_witness :
    ((Container_create aliceContainer none aliceInfo).2 ++
        (Container_create (Container_create aliceContainer none aliceInfo).1
          none otherInfo).2).countP
      isEngineCreate = 1 ∧
    (Container_create (Container_create aliceContainer none aliceInfo).1
        none otherInfo).1.docker_container_info = some aliceInfo ∧
    ((create_container "alice" aliceSpec aliceInfo).2 ++
        (create_container "alice" (create_container "alice" aliceSpec aliceInfo).1
          otherInfo).2).countP
      isRCreate = 1 ∧
    (create_container "alice" (create_container "alice" aliceSpec aliceInfo).1
        otherInfo).1.instanceInfo = some aliceInfo :=
  c5_create_idempotent aliceContainer none aliceInfo otherInfo rfl
    "alice" aliceSpec aliceInfo otherInfo rfl

/-! ## Claim C6 -/

/-- C6: starting a never-created container fails with the not-created
error and issues zero engine start calls, in both implementations. -/
theorem c6_start_not_created (c : ContainerState) (group : Option GroupModel)
    (hc : c.docker_container_info = none) (name : String) (spec : RSpec)
    (hs : spec.instanceInfo = none) :
    (Container_start c group).1 =
      .error ("Docker container " ++ c.name ++ " not created!") ∧
    (Container_start c group).2 = [] ∧
    (start_container name spec).1 =
      .error "Must create a container instance before attempting to run" ∧
    (start_container name spec).2 = [] := by
  refine ⟨?_, ?_, ?_, ?_⟩ <;> simp [Container_start, start_container, hc, hs]

theorem c6_start_not_created_witness :
    (Container_start aliceContainer none).1 =
      .error ("Docker container " ++ aliceContainer.name ++ " not created!") ∧
    (Container_start aliceContainer none).2 = [] ∧
    (start_container "alice" aliceSpec).1 =
      .error "Must create a container instance before attempting to run" ∧
    (start_container "alice" aliceSpec).2 = [] :=
  c6_start_not_created aliceContainer none rfl "alice" aliceSpec rfl

/-! ## Claim C7 -/

/-- C7 counterexample: components.Container.stop and Container.remove are
decorated with assert_created, so on the never-created container alice
both raise the not-created RuntimeError instead of being no-ops — the
claim that neither operation raises for a never-created container is
false on this code. -/
theorem c7_counterexample_stop_remove_raise :
    aliceContainer.docker_container_info = none ∧
    (Container_stop aliceContainer).1 =
      .error "Docker container alice not created!" ∧
    (Container_remove aliceContainer).1 =
      .error "Docker container alice not created!" :=
  ⟨rfl, rfl, rfl⟩

/-- C7 amended: for a container without live info, the Decking facade
behaves as claimed — stop_container is a silent no-op and
remove_container is a no-op that emits a warning, neither raising — while
components.Container.stop and Container.remove instead raise the
not-created error, in every case issuing zero engine calls. -/
theorem c7_stop_remove_not_created (name : String) (spec : RSpec)
    (hs : spec.instanceInfo = none) (c : ContainerState)
    (hc : c.docker_container_info = none) :
    stop_container spec = [] ∧
    remove_container name spec =
      ([], [TermEvent.warning ("no instance found for " ++ name)]) ∧
    (Container_stop c).1 =
      .error ("Docker container " ++ c.name ++ " not created!") ∧
    (Container_stop c).2 = [] ∧
    (Container_remove c).1 =
      .error ("Docker container " ++ c.name ++ " not created!") ∧
    (Container_remove c).2 = [] := by
  refine ⟨?_, ?_, ?_, ?_, ?_, ?_⟩ <;>
    simp [stop_container, remove_container, Container_stop, Container_remove, hs, hc]

theorem c7_stop_remove_not_created_witness :
    stop_container bobSpec = [] ∧
    remove_container "bob" bobSpec =
      ([], [TermEvent.warning ("no instance found for " ++ "bob")]) ∧
    (Container_stop bobContainer).1 =
      .error ("Docker container " ++ bobContainer.name ++ " not created!") ∧
    (Container_stop bobContainer).2 = [] ∧
    (Container_remove bobContainer).1 =
      .error ("Docker container " ++ bobContainer.name ++ " not created!") ∧
    (Container_remove bobContainer).2 = [] :=
  c7_stop_remove_not_created "bob" bobSpec rfl bobContainer rfl

/-! ## Claim C8 -/

theorem foldl_preserves {α β γ : Type} (proj : α → γ) (f : α → β → α)
    (hf : ∀ a b, proj (f a b) = proj a) :
    ∀ (l : List β) (init : α), proj (l.foldl f init) = proj init := by
  intro l
  induction l with
  | nil => intro init; rfl
  | cons x xs ih => intro init; rw [List.foldl_cons, ih, hf]

theorem populate_inner_step_preserves (name : String) (info : DockerInfo)
    (acc : List (String × RSpec)) :
    ((if (acc.lookup name).isSome then
        acc.map (fun p =>
          if p.1 = name then (p.1, { p.2 with instanceInfo := some info }) else p)
      else acc).map (fun p => (p.1, { p.2 with instanceInfo := none }))) =
      acc.map (fun p => (p.1, { p.2 with instanceInfo := none })) := by
  by_cases h : (acc.lookup name).isSome
  · rw [if_pos h, List.map_map]
    apply List.map_congr_left
    intro p _
    by_cases hp : p.1 = name <;> simp [hp]
  · rw [if_neg h]

/-- Stored configuration with the live-info key cleared: everything the
claim says must survive a status call unchanged except live info. -/
def clear_live_info (specs : List (String × RSpec)) : List (String × RSpec) :=
  specs.map (fun p => (p.1, { p.2 with instanceInfo := none }))

theorem populate_preserves_config (specs : List (String × RSpec))
    (live : List DockerInfo) :
    clear_live_info (populate_live_container_data specs live) =
      clear_live_info specs := by
  unfold populate_live_container_data clear_live_info
  exact foldl_preserves
    (fun l => List.map (fun p => (p.1, { p.2 with instanceInfo := none })) l) _
    (fun acc info =>
      foldl_preserves
        (fun l => List.map (fun p => (p.1, { p.2 with instanceInfo := none })) l) _
        (fun acc2 rawName => populate_inner_step_preserves (rawName.drop 1) info acc2)
        info.names acc)
    live specs

/-- C8 amended: the container-level status report is a pure function of
the stored state (status_container issues no engine call and performs no
write), and the cluster-level status operation issues only the read-only
container listing; its only effect on stored state is the documented
refresh of the live info of each matching container from the engine report —
every other stored configuration field of every container is exactly as
it was before the call. -/
theorem c8_status_preserves_all_but_live_info (specs : List (String × RSpec))
    (live : List DockerInfo) :
    (status_cluster specs live).2 = [RCall.containers] ∧
    (status_cluster specs live).1 = populate_live_container_data specs live ∧
    clear_live_info (status_cluster specs live).1 = clear_live_info specs := by
  refine ⟨rfl, rfl, ?_⟩
  exact populate_preserves_config specs live

/-- C8 counterexample: cluster status is not read-only on stored state.
For the single never-created container alice and an engine report listing
a container named /alice, status_cluster stores the reported live info on
the spec, so the live-info state after the call differs from before. -/
theorem c8_counterexample_status_mutates_live_info :
    aliceSpec.instanceInfo = none ∧
    (status_cluster [("alice", aliceSpec)] [aliceInfo]).1 =
      [("alice", { aliceSpec with instanceInfo := some aliceInfo })] ∧
    (status_cluster [("alice", aliceSpec)] [aliceInfo]).1 ≠
      [("alice", aliceSpec)] := by
  refine ⟨rfl, ?_, ?_⟩ <;> decide

/-! ## Claim C10 -/

theorem merge_heap_fold_frame (selfName : String) (valueAddr : Nat)
    (l : List (GroupKey × Nat)) :
    ∀ (hh : DictHeap) (a : Nat), a ≠ valueAddr →
      (l.foldl
        (fun hh kv =>
          if groupKeyMatches kv.1 selfName then
            heapWrite hh valueAddr (dict_update (hh.store valueAddr) (hh.store kv.2))
          else hh)
        hh).store a = hh.store a := by
  induction l with
  | nil => intro hh a _; rfl
  | cons kv rest ih =>
    intro hh a ha
    rw [List.foldl_cons]
    rw [ih _ a ha]
    by_cases hm : groupKeyMatches kv.1 selfName
    · simp [hm, heapWrite, ha]
    · simp [hm]

theorem merge_heap_preserves (h : DictHeap) (selfAttrAddr : Nat)
    (selfName : String) (g : GroupHeapModel) (a : Nat) (ha : a < h.next) :
    ((get_group_modified_dict_attribute_heap h selfAttrAddr selfName (some g)).2).store a
      = h.store a := by
  have hne : a ≠ h.next := Nat.ne_of_lt ha
  unfold get_group_modified_dict_attribute_heap
  simp only [heapAlloc]
  rw [merge_heap_fold_frame _ _ _ _ a hne]
  simp [heapWrite, hne]

/-- C10: the group-modified attribute computation operates on a fresh
copy (value = dict(getattr(self, attr_name))) and writes only through the
fresh reference, so in the heap model every previously allocated dict —
the stored base attribute of the container, the group options dict, and
every per-container override dict — holds exactly its old contents
afterwards; the same holds with no group.  Repeated operations therefore
always start from the same base configuration. -/
theorem c10_merge_leaves_inputs_unchanged (h : DictHeap) (selfAttrAddr : Nat)
    (selfName : String) (g : GroupHeapModel)
    (hself : selfAttrAddr < h.next)
    (hopts : g.optionsAttrAddr < h.next)
    (hpcs : ∀ kv ∈ g.per_container_specs, kv.2 < h.next) :
    ((get_group_modified_dict_attribute_heap h selfAttrAddr selfName (some g)).2).store
        selfAttrAddr = h.store selfAttrAddr ∧
    ((get_group_modified_dict_attribute_heap h selfAttrAddr selfName (some g)).2).store
        g.optionsAttrAddr = h.store g.optionsAttrAddr ∧
    (∀ kv ∈ g.per_container_specs,
      ((get_group_modified_dict_attribute_heap h selfAttrAddr selfName (some g)).2).store
          kv.2 = h.store kv.2) ∧
    ((get_group_modified_dict_attribute_heap h selfAttrAddr selfName none).2).store
        selfAttrAddr = h.store selfAttrAddr := by
  refine ⟨merge_heap_preserves h selfAttrAddr selfName g selfAttrAddr hself,
    merge_heap_preserves h selfAttrAddr selfName g g.optionsAttrAddr hopts,
    fun kv hkv => merge_heap_preserves h selfAttrAddr selfName g kv.2 (hpcs kv hkv),
    ?_⟩
  have hne : selfAttrAddr ≠ h.next := Nat.ne_of_lt hself
  unfold get_group_modified_dict_attribute_heap
  simp [heapAlloc, hne]

/-- The heap of the worked group example: address 0 holds the base
environment, address 1 the group options environment, address 2 the
per-container override environment. -/
def exampleHeap : DictHeap :=
  { store := fun a =>
      if a = 0 then [("moose", "pants")]
      else if a = 1 then [("moose", "overridden"), ("pants", "extra")]
      else if a = 2 then [("more", "extra extra")]
      else [],
    next := 3 }

/-- The heap-level group of the worked example, keyed by name. -/
def exampleHeapGroup : GroupHeapModel :=
  { optionsAttrAddr := 1,
    per_container_specs := [(GroupKey.byName "container_name", 2)] }

theorem c10_merge_leaves_inputs_unchanged_witness :
    ((get_group_modified_dict_attribute_heap exampleHeap 0 "container_name"
        (some exampleHeapGroup)).2).store 0 = exampleHeap.store 0 ∧
    ((get_group_modified_dict_attribute_heap exampleHeap 0 "container_name"
        (some exampleHeapGroup)).2).store 1 = exampleHeap.store 1 ∧
    ((get_group_modified_dict_attribute_heap exampleHeap 0 "container_name"
        (some exampleHeapGroup)).2).store 2 = exampleHeap.store 2 :=
  ⟨(c10_merge_leaves_inputs_unchanged exampleHeap 0 "container_name"
      exampleHeapGroup (by decide) (by decide) (by decide)).1,
   (c10_merge_leaves_inputs_unchanged exampleHeap 0 "container_name"
      exampleHeapGroup (by decide) (by decide) (by decide)).2.1,
   (c10_merge_leaves_inputs_unchanged exampleHeap 0 "container_name"
      exampleHeapGroup (by decide) (by decide) (by decide)).2.2.1
     (GroupKey.byName "container_name", 2) (by decide)⟩

end DeckingProof
